import Mathlib

/-!
Verification development for the virtual-launch chain-indexing engine.

Shallow embedding conventions used throughout this file:
* Ethereum addresses and transaction hashes are modelled as natural numbers;
  `getAddress` / `.toLowerCase()` normalisation from the source is the
  identity on this already-canonical representation.
* JavaScript `bigint` values are modelled as `Int`; `bigint` division and
  remainder truncate toward zero, which is `Int.tdiv` / `Int.tmod`.
* JavaScript `number` arithmetic on prices is modelled exactly over `ℚ`.
* Amounts persisted as decimal strings in the source (`.toString()`) are kept
  as integers here; the decimal encoding is injective so nothing is lost.
* Fallible RPC reads are modelled as `Option`-valued fields of an explicit
  chain-view record; a `try`/`catch` that maps failure to a default result
  becomes a `match` on `none`.
-/

namespace VLaunch

abbrev Addr := Nat

abbrev TxHash := Nat

/-- A decoded ERC-20 `Transfer` log (`ParsedTransfer` in `src/types.ts`).
The source's `from`/`to` fields are named `fromAddr`/`toAddr` because `from`
is a Lean keyword. -/
structure Transfer where
  address : Addr
  fromAddr : Addr
  toAddr : Addr
  value : Int
  txHash : TxHash
  logIndex : Nat
  blockNumber : Nat
deriving Repr, DecidableEq

inductive Side where
  | BUY
  | SELL
deriving Repr, DecidableEq

inductive Venue where
  | INTERNAL
  | EXTERNAL
deriving Repr, DecidableEq

/-- A reconstructed trade row (`Trade` in `src/types.ts`).  Amount fields are
nullable decimal strings in the source; they are `Option Int` here. -/
structure Trade where
  projectId : Nat
  venue : Venue
  marketAddress : Addr
  txHash : TxHash
  logIndex : Nat
  blockNumber : Nat
  ts : Nat
  trader : Addr
  side : Side
  quoteIn : Option Int
  quoteInGross : Option Int
  quoteOut : Option Int
  tokenIn : Option Int
  tokenOut : Option Int
  priceQuotePerToken : Option ℚ
deriving Repr, DecidableEq

/-- `TxTransferGroup` from `src/indexer/launch-path-parser.ts`. -/
structure TxTransferGroup where
  token : List Transfer
  virtual : List Transfer
deriving Repr, DecidableEq

/-- `LAUNCH_PATH_NET_ADDRESS` (a fixed protocol routing address; the concrete
hex constant is represented by a distinguished natural). -/
def LAUNCH_PATH_NET_ADDRESS : Addr := 901

/-- `LAUNCH_PATH_TAX_ADDRESS` (a fixed protocol routing address; the concrete
hex constant is represented by a distinguished natural). -/
def LAUNCH_PATH_TAX_ADDRESS : Addr := 902

/-- Membership in the two-element `LAUNCH_PATH_ADDRESSES` set. -/
def isLaunchPathAddr (a : Addr) : Bool :=
  a = LAUNCH_PATH_NET_ADDRESS ∨ a = LAUNCH_PATH_TAX_ADDRESS

/-- `hasLaunchPathTransfers` from `launch-path-parser.ts`: some quote-asset
transfer in the group touches a launch-path address. -/
def hasLaunchPathTransfers (g : TxTransferGroup) : Bool :=
  g.virtual.any (fun v => isLaunchPathAddr v.fromAddr || isLaunchPathAddr v.toAddr)

/-- Sum of the values of a list of transfers (the `reduce((s, t) => s + t.value, 0n)`
pattern from the source). -/
def sumValues (ts : List Transfer) : Int :=
  ts.foldl (fun s t => s + t.value) 0

/-- `inferLaunchPathBuyQuote` from `launch-path-parser.ts`.  The source
accumulates per-recipient totals in a map and tracks their running maximum;
since the only possible recipients are the two launch-path addresses and the
running totals only grow, the final maximum equals the max of the two final
per-recipient sums, which is how it is computed here. -/
def inferLaunchPathBuyQuote (g : TxTransferGroup) (trader : Addr) : Int × Int :=
  let legs := g.virtual.filter
    (fun v => v.fromAddr = trader ∧ isLaunchPathAddr v.toAddr)
  let gross := sumValues legs
  let netToPrimary := sumValues (legs.filter (fun v => v.toAddr = LAUNCH_PATH_NET_ADDRESS))
  let toTax := sumValues (legs.filter (fun v => v.toAddr = LAUNCH_PATH_TAX_ADDRESS))
  let maxSingleRecipient := max netToPrimary toTax
  let net0 := if 0 < netToPrimary then netToPrimary else maxSingleRecipient
  let net1 := if net0 ≤ 0 then gross else net0
  let net2 := if gross < net1 then gross else net1
  (gross, net2)

/-- `inferLaunchPathSellQuoteOut` from `launch-path-parser.ts`. -/
def inferLaunchPathSellQuoteOut (g : TxTransferGroup) (trader : Addr) : Int :=
  sumValues (g.virtual.filter
    (fun v => v.toAddr = trader ∧ isLaunchPathAddr v.fromAddr))

/-- Append a market-touching token transfer to its transaction's group,
creating the group at the end of the list if absent (JS `Map` insertion
order). -/
def pushTokenTransfer : List (TxHash × TxTransferGroup) → Transfer →
    List (TxHash × TxTransferGroup)
  | [], t => [(t.txHash, ⟨[t], []⟩)]
  | (h, g) :: rest, t =>
    if h = t.txHash then (h, { g with token := g.token ++ [t] }) :: rest
    else (h, g) :: pushTokenTransfer rest t

/-- Append a quote transfer to an existing group (first matching key).  Used
only when the key is present. -/
def pushVirtualTransfer : List (TxHash × TxTransferGroup) → Transfer →
    List (TxHash × TxTransferGroup)
  | [], _ => []
  | (h, g) :: rest, v =>
    if h = v.txHash then (h, { g with virtual := g.virtual ++ [v] }) :: rest
    else (h, g) :: pushVirtualTransfer rest v

/-- The grouping phase of `reconstructTrades` (`trade-parser.ts` lines 46-76):
token transfers touching the market open a group; every quote transfer of a
grouped transaction is attached; otherwise a quote transfer opens a group only
when it itself touches the market. -/
def buildTxGroups (market : Addr) (tokenTransfers virtualTransfers : List Transfer) :
    List (TxHash × TxTransferGroup) :=
  let tokenGroups := tokenTransfers.foldl
    (fun gs t =>
      if t.fromAddr = market ∨ t.toAddr = market then pushTokenTransfer gs t else gs)
    []
  virtualTransfers.foldl
    (fun gs v =>
      if gs.any (fun p => p.1 = v.txHash) then pushVirtualTransfer gs v
      else if v.fromAddr = market ∨ v.toAddr = market then gs ++ [(v.txHash, ⟨[], [v]⟩)]
      else gs)
    tokenGroups

/-- Net quote flow relative to the market (`deltaVirtual`). -/
def deltaVirtual (market : Addr) (g : TxTransferGroup) : Int :=
  g.virtual.foldl
    (fun acc v =>
      (acc + (if v.toAddr = market then v.value else 0)) -
        (if v.fromAddr = market then v.value else 0))
    0

/-- Net token flow relative to the market (`deltaToken`). -/
def deltaToken (market : Addr) (g : TxTransferGroup) : Int :=
  g.token.foldl
    (fun acc t =>
      (acc + (if t.toAddr = market then t.value else 0)) -
        (if t.fromAddr = market then t.value else 0))
    0

/-- Minimum log index over all transfers of a group
(`Math.min(...allLogs.map(l => l.logIndex))`; groups are never empty). -/
def minLogIndex (g : TxTransferGroup) : Nat :=
  match g.token ++ g.virtual with
  | [] => 0
  | l :: ls => ls.foldl (fun m t => Nat.min m t.logIndex) l.logIndex

/-- Block number of a group (`allLogs[0]?.blockNumber || 0`). -/
def groupBlockNumber (g : TxTransferGroup) : Nat :=
  match g.token ++ g.virtual with
  | [] => 0
  | l :: _ => l.blockNumber

/-- The per-transaction classification of `reconstructTrades`
(`trade-parser.ts` lines 80-361), producing at most one trade per group.

The source's `trader` variable starts as the empty string and may fall back to
the literal `'unknown'`; both stand for "not found" and are modelled as
`Option`.  In the two primary branches the fallback chain always succeeds
(the sign of the respective delta guarantees a matching transfer), so the
`none` case - where the source would throw inside `getAddress('unknown')` -
is unreachable and yields no trade here. -/
def tradeCandidate (market : Addr) (projectId : Nat) (venue : Venue)
    (blockTimestamp : Nat) (txHash : TxHash) (g : TxTransferGroup) : Option Trade :=
  let dV := deltaVirtual market g
  let dT := deltaToken market g
  if dV = 0 ∧ dT = 0 then none
  else
    let mkTrade := fun (trader : Addr) (side : Side)
        (quoteIn quoteInGross quoteOut tokenIn tokenOut : Option Int)
        (price : ℚ) =>
      some { projectId := projectId, venue := venue, marketAddress := market,
             txHash := txHash, logIndex := minLogIndex g,
             blockNumber := groupBlockNumber g, ts := blockTimestamp,
             trader := trader, side := side, quoteIn := quoteIn,
             quoteInGross := quoteInGross, quoteOut := quoteOut,
             tokenIn := tokenIn, tokenOut := tokenOut,
             priceQuotePerToken := some price }
    if 0 < dV ∧ dT < 0 then
      -- BUY: market received quote, market sent token.
      let quoteInNet := dV
      let tokenOutTotal := -dT
      let quoteInGross0 := sumValues (g.virtual.filter (fun v => v.toAddr = market))
      let quoteInGross1 := if quoteInGross0 < quoteInNet then quoteInNet else quoteInGross0
      let traderOpt :=
        match g.token.find? (fun t => t.fromAddr = market) with
        | some t => some t.toAddr
        | none => (g.virtual.find? (fun v => v.toAddr = market)).map (·.fromAddr)
      match traderOpt with
      | none => none
      | some trader =>
        let tokenToTrader := sumValues (g.token.filter
          (fun t => t.fromAddr = market ∧ t.toAddr = trader))
        let tokenOut := if 0 < tokenToTrader then tokenToTrader else tokenOutTotal
        let virtualFromTraderToMarket := sumValues (g.virtual.filter
          (fun v => v.toAddr = market ∧ v.fromAddr = trader))
        let virtualFromTraderTotal := sumValues (g.virtual.filter
          (fun v => v.fromAddr = trader))
        let quoteInGross2 :=
          if 0 < virtualFromTraderTotal then virtualFromTraderTotal
          else if 0 < virtualFromTraderToMarket then virtualFromTraderToMarket
          else quoteInGross1
        if tokenOut ≤ 0 then none
        else mkTrade trader Side.BUY (some quoteInNet) (some quoteInGross2)
          none none (some tokenOut) ((quoteInNet : ℚ) / (tokenOut : ℚ))
    else if 0 < dT ∧ dV < 0 then
      -- SELL: market received token, market sent quote.
      let traderOpt :=
        match g.token.find? (fun t => t.toAddr = market) with
        | some t => some t.fromAddr
        | none => (g.virtual.find? (fun v => v.fromAddr = market)).map (·.toAddr)
      match traderOpt with
      | none => none
      | some trader =>
        let tokenFromTrader := sumValues (g.token.filter
          (fun t => t.toAddr = market ∧ t.fromAddr = trader))
        let tokenIn := if 0 < tokenFromTrader then tokenFromTrader else dT
        let virtualToTrader := sumValues (g.virtual.filter
          (fun v => v.fromAddr = market ∧ v.toAddr = trader))
        let quoteOut := if 0 < virtualToTrader then virtualToTrader else -dV
        if tokenIn ≤ 0 ∨ quoteOut ≤ 0 then none
        else mkTrade trader Side.SELL none none (some quoteOut) (some tokenIn)
          none ((quoteOut : ℚ) / (tokenIn : ℚ))
    else if 0 < dT ∧ hasLaunchPathTransfers g then
      -- Launch-specific SELL fallback: payout routed via launch-path contracts.
      match (g.token.find? (fun t => t.toAddr = market)).map (·.fromAddr) with
      | none => none
      | some trader =>
        let tokenIn := sumValues (g.token.filter
          (fun t => t.toAddr = market ∧ t.fromAddr = trader))
        if tokenIn ≤ 0 then none
        else
          let quoteOut := inferLaunchPathSellQuoteOut g trader
          if quoteOut ≤ 0 then none
          else mkTrade trader Side.SELL none none (some quoteOut) (some tokenIn)
            none ((quoteOut : ℚ) / (tokenIn : ℚ))
    else if dT < 0 then
      -- Router-like BUY fallback: quote may not flow directly to the market.
      match (g.token.find? (fun t => t.fromAddr = market)).map (·.toAddr) with
      | none => none
      | some trader =>
        let tokenOut := sumValues (g.token.filter
          (fun t => t.fromAddr = market ∧ t.toAddr = trader))
        if tokenOut ≤ 0 then none
        else
          let quoteInGross0 := sumValues (g.virtual.filter (fun v => v.fromAddr = trader))
          let inferredPair :=
            if quoteInGross0 ≤ 0 ∧ hasLaunchPathTransfers g then
              inferLaunchPathBuyQuote g trader
            else (quoteInGross0, quoteInGross0)
          let quoteInGross := inferredPair.1
          let quoteInNetFallback := inferredPair.2
          if quoteInGross ≤ 0 then none
          else
            let quoteInNet0 := if 0 < dV then dV else quoteInNetFallback
            let quoteInNet1 := if quoteInNet0 ≤ 0 then quoteInGross else quoteInNet0
            let quoteInNet2 := if quoteInGross < quoteInNet1 then quoteInGross else quoteInNet1
            mkTrade trader Side.BUY (some quoteInNet2) (some quoteInGross)
              none none (some tokenOut) ((quoteInNet2 : ℚ) / (tokenOut : ℚ))
    else none

/-- `reconstructTrades` from `src/indexer/trade-parser.ts`. -/
def reconstructTrades (tokenTransfers virtualTransfers : List Transfer)
    (marketAddress : Addr) (projectId : Nat) (venue : Venue)
    (blockTimestamp : Nat) : List Trade :=
  (buildTxGroups marketAddress tokenTransfers virtualTransfers).filterMap
    (fun p => tradeCandidate marketAddress projectId venue blockTimestamp p.1 p.2)

/-- The quote-asset (VIRTUAL) token contract address (`VIRTUAL_ADDRESS` in
`src/chain/constants.ts`; the concrete hex constant is represented by a
distinguished natural). -/
def VIRTUAL_ADDRESS : Addr := 888

/-- A recorded tax-bearing transfer leg (`TaxInflow` in `src/types.ts`). -/
structure TaxInflow where
  projectId : Nat
  txHash : TxHash
  blockNumber : Nat
  ts : Nat
  token : Addr
  amount : Int
  logIndex : Nat
deriving Repr, DecidableEq

/-- Group transfers by transaction hash preserving first-appearance order
(the `tokenByTx` / `virtualByTx` maps of `extractTaxInflows`). -/
def groupByTx (ts : List Transfer) : List (TxHash × List Transfer) :=
  ts.foldl
    (fun gs t =>
      if gs.any (fun p => p.1 = t.txHash) then
        gs.map (fun p => if p.1 = t.txHash then (p.1, p.2 ++ [t]) else p)
      else gs ++ [(t.txHash, [t])])
    []

/-- First transfer of maximal value.  The source sorts a copy descending by
value with a stable sort and takes element 0; that element is the earliest
transfer attaining the maximum value, computed here by a fold that replaces
the best candidate only on a strictly larger value. -/
def largestTransfer : List Transfer → Option Transfer
  | [] => none
  | t :: ts => some (ts.foldl (fun best x => if best.value < x.value then x else best) t)

/-- The split-tax rule of `extractTaxInflows` (`tax-tracker.ts` lines
105-148), for a single transaction: derive the market and trader from the
largest token-out transfer, require a trader→market quote payment leg, and
record the trader's other positive quote outflows (excluding legs to the
market and to the tax recipient) as tax legs. -/
def splitTaxLegs (recipient : Addr) (txTok txVirt : List Transfer) : List Transfer :=
  if txVirt.isEmpty then []
  else
    match largestTransfer txTok with
    | none => []
    | some t0 =>
      let marketAddr := t0.fromAddr
      let traderAddr := t0.toAddr
      let hasMainBuyLeg := txVirt.any
        (fun m => m.fromAddr = traderAddr ∧ m.toAddr = marketAddr ∧ 0 < m.value)
      if hasMainBuyLeg then
        txVirt.filter (fun v =>
          v.fromAddr = traderAddr ∧ v.toAddr ≠ marketAddr ∧ v.toAddr ≠ recipient ∧
            0 < v.value)
      else []

/-- Build a quote-asset `TaxInflow` row from a transfer leg. -/
def mkVirtualInflow (projectId blockTimestamp : Nat) (v : Transfer) : TaxInflow :=
  { projectId := projectId, txHash := v.txHash, blockNumber := v.blockNumber,
    ts := blockTimestamp, token := VIRTUAL_ADDRESS, amount := v.value,
    logIndex := v.logIndex }

/-- `extractTaxInflows` from `src/indexer/tax-tracker.ts`: split-tax legs
first (marking their log keys consumed and their transactions special), then
token transfers to the tax recipient, then quote transfers to the tax
recipient in transactions that touch the project token and were not consumed
by the split-tax rule. -/
def extractTaxInflows (tokenTransfers virtualTransfers : List Transfer)
    (taxRecipient : Addr) (projectId : Nat) (blockTimestamp : Nat) : List TaxInflow :=
  let tokenTxHashes := tokenTransfers.map (·.txHash)
  let tokenByTx := groupByTx tokenTransfers
  let virtualByTx := groupByTx virtualTransfers
  let splitPerTx := tokenByTx.map (fun p =>
    (p.1, splitTaxLegs taxRecipient p.2
      (((virtualByTx.find? (fun q => q.1 = p.1)).map (·.2)).getD [])))
  let specialSplitTaxTx := (splitPerTx.filter (fun p => ¬ p.2.isEmpty)).map (·.1)
  let consumedKeys := (splitPerTx.foldr (fun p acc => p.2 ++ acc) []).map
    (fun v => (v.txHash, v.logIndex))
  let splitInflows := (splitPerTx.foldr (fun p acc => p.2 ++ acc) []).map
    (mkVirtualInflow projectId blockTimestamp)
  let tokenInflows := (tokenTransfers.filter (fun t => t.toAddr = taxRecipient)).map
    (fun t =>
      { projectId := projectId, txHash := t.txHash, blockNumber := t.blockNumber,
        ts := blockTimestamp, token := t.address, amount := t.value,
        logIndex := t.logIndex })
  let genericInflows := (virtualTransfers.filter (fun v =>
      ¬ consumedKeys.contains (v.txHash, v.logIndex) ∧
        ¬ specialSplitTaxTx.contains v.txHash ∧
        v.toAddr = taxRecipient ∧ tokenTxHashes.contains v.txHash)).map
    (mkVirtualInflow projectId blockTimestamp)
  splitInflows ++ tokenInflows ++ genericInflows

inductive SimMode where
  | IDEAL
  | REALISTIC
deriving Repr, DecidableEq

/-- One entry of the buyback price trajectory.  The source also renders a
human-readable `elapsed` string from the elapsed seconds; only the number of
seconds is kept here (the rendering is display-only). -/
structure TrajectoryPoint where
  step : Nat
  price : ℚ
  tokensBought : Int
  elapsedSeconds : Nat
deriving Repr, DecidableEq

/-- The `assumptions` record of a buyback simulation.  `priceAnchorSpot` is
`true` for the source's `'SPOT'` anchor and `false` for `'RESERVE'`. -/
structure BuybackAssumptions where
  noExternalSells : Bool
  useCurrentLpReserves : Bool
  mode : SimMode
  sellPressureBpsPerStep : Nat
  priceAnchorSpot : Bool
  spotPriceAnchor : Option ℚ
deriving Repr, DecidableEq

/-- `BuybackSimulation` result record (`src/types.ts`). -/
structure BuybackSimulation where
  budget : Int
  amountPerStep : Int
  remainderAmount : Int
  steps : Nat
  stepIntervalSeconds : Nat
  totalTokensBought : Int
  avgPrice : ℚ
  maxSlippage : ℚ
  initialPrice : ℚ
  priceTrajectory : List TrajectoryPoint
  finalPrice : ℚ
  priceImpactPercent : ℚ
  reserveVirtual : Int
  reserveToken : Int
  assumptions : BuybackAssumptions
deriving Repr, DecidableEq

/-- `DumpSimulationResult` record (`src/types.ts`). -/
structure DumpSimulationResult where
  reserveVirtual : Int
  reserveToken : Int
  sellAmountToken : Int
  virtualOut : Int
  initialPrice : ℚ
  finalPrice : ℚ
  priceImpactPercent : ℚ
  requiredBuybackVirtual : Int
deriving Repr, DecidableEq

/-- The constant-product buy update inside the `simulateBuyback` loop:
`tokenOut = reserveToken - (reserveVirtual * reserveToken) / (reserveVirtual + amount)`,
returning the updated `(reserveVirtual, reserveToken)` pair.  `bigint`
division truncates toward zero, hence `Int.tdiv`. -/
def buybackBuyReserves (rv rt buy : Int) : Int × Int :=
  (rv + buy, (rv * rt).tdiv (rv + buy))

/-- The synthetic sell-pressure update applied after a buy step in REALISTIC
mode (`sellIn = tokenOut * bps / 10000` tokens sold back into the pool). -/
def buybackSellPressure (sellPressureBps : Nat) (rv rt tokenOut : Int) : Int × Int :=
  if 0 < sellPressureBps ∧ 0 < tokenOut then
    let sellIn := (tokenOut * (sellPressureBps : Int)).tdiv 10000
    if 0 < sellIn then
      let kAfterBuy := rv * rt
      let postSellReserveToken := rt + sellIn
      (kAfterBuy.tdiv postSellReserveToken, postSellReserveToken)
    else (rv, rt)
  else (rv, rt)

/-- Loop state of `simulateBuyback`. -/
structure BuybackLoopState where
  reserveVirtual : Int
  reserveToken : Int
  totalTokensBought : Int
  totalSpent : Int
  maxSlippage : ℚ
  trajectory : List TrajectoryPoint
deriving Repr, DecidableEq

/-- One iteration of the `simulateBuyback` loop (`part_010` lines 379-433):
pick the step's buy amount (the remainder on the last step), apply the
constant-product buy, skip the iteration entirely when `tokenOut ≤ 0`,
optionally apply sell pressure, and record price, slippage and trajectory. -/
def buybackLoopBody (sellPressureBps : Nat) (initialPriceRaw priceScale : ℚ)
    (stepIntervalSeconds steps : Nat) (amountPerStep remainderAmount : Int)
    (st : BuybackLoopState) (i : Nat) : BuybackLoopState :=
  let buyAmount :=
    if i = steps - 1 ∧ 0 < remainderAmount then remainderAmount else amountPerStep
  let afterBuy := buybackBuyReserves st.reserveVirtual st.reserveToken buyAmount
  let tokenOut := st.reserveToken - afterBuy.2
  if tokenOut ≤ 0 then st
  else
    let afterSell := buybackSellPressure sellPressureBps afterBuy.1 afterBuy.2 tokenOut
    let currentPriceRaw := (afterSell.1 : ℚ) / (afterSell.2 : ℚ)
    let currentPrice := currentPriceRaw * priceScale
    let slippage := (currentPriceRaw - initialPriceRaw) / initialPriceRaw
    { reserveVirtual := afterSell.1, reserveToken := afterSell.2,
      totalTokensBought := st.totalTokensBought + tokenOut,
      totalSpent := st.totalSpent + buyAmount,
      maxSlippage := if st.maxSlippage < slippage then slippage else st.maxSlippage,
      trajectory := st.trajectory ++
        [{ step := i + 1, price := currentPrice, tokensBought := tokenOut,
           elapsedSeconds := (i + 1) * stepIntervalSeconds }] }

/-- `simulateBuyback` from the AMM simulator (`part_010` lines 314-472).
JavaScript `number` price arithmetic is modelled over `ℚ` (every quantity
involved is finite, so the `Number.isFinite` test of the anchor check always
passes). -/
def simulateBuyback (reserve0 reserve1 : Int) (isToken0 : Bool)
    (amountPerStep totalTaxInput : Int) (stepIntervalSeconds : Nat)
    (mode : SimMode) (spotPriceAnchor : Option ℚ) : BuybackSimulation :=
  let sellPressureBps : Nat := if mode = SimMode.REALISTIC then 3000 else 0
  if amountPerStep = 0 ∨ totalTaxInput = 0 ∨ reserve0 = 0 ∨ reserve1 = 0 then
    { budget := 0, amountPerStep := amountPerStep, remainderAmount := 0,
      steps := 0, stepIntervalSeconds := stepIntervalSeconds,
      totalTokensBought := 0, avgPrice := 0, maxSlippage := 0,
      initialPrice := 0, priceTrajectory := [], finalPrice := 0,
      priceImpactPercent := 0, reserveVirtual := 0, reserveToken := 0,
      assumptions := { noExternalSells := mode = SimMode.IDEAL,
                       useCurrentLpReserves := true, mode := mode,
                       sellPressureBpsPerStep := sellPressureBps,
                       priceAnchorSpot := false, spotPriceAnchor := none } }
  else
    let reserveVirtual0 := if isToken0 then reserve1 else reserve0
    let reserveToken0 := if isToken0 then reserve0 else reserve1
    let fullSteps := totalTaxInput.tdiv amountPerStep
    let remainderAmount := totalTaxInput.tmod amountPerStep
    let steps := (fullSteps + (if 0 < remainderAmount then 1 else 0)).toNat
    let initialPriceRaw := (reserveVirtual0 : ℚ) / (reserveToken0 : ℚ)
    let shouldAnchor : Bool :=
      match spotPriceAnchor with
      | some a => decide (0 < a) && decide (0 < initialPriceRaw)
      | none => false
    let priceScale := if shouldAnchor then (spotPriceAnchor.getD 0) / initialPriceRaw else 1
    let initialPrice := initialPriceRaw * priceScale
    let final := (List.range steps).foldl
      (buybackLoopBody sellPressureBps initialPriceRaw priceScale
        stepIntervalSeconds steps amountPerStep remainderAmount)
      { reserveVirtual := reserveVirtual0, reserveToken := reserveToken0,
        totalTokensBought := 0, totalSpent := 0, maxSlippage := 0,
        trajectory := [] }
    let finalPriceRaw := (final.reserveVirtual : ℚ) / (final.reserveToken : ℚ)
    let avgPriceRaw :=
      if 0 < final.totalTokensBought then
        (final.totalSpent : ℚ) / (final.totalTokensBought : ℚ)
      else 0
    { budget := final.totalSpent, amountPerStep := amountPerStep,
      remainderAmount := remainderAmount, steps := steps,
      stepIntervalSeconds := stepIntervalSeconds,
      totalTokensBought := final.totalTokensBought,
      avgPrice := avgPriceRaw * priceScale, maxSlippage := final.maxSlippage,
      initialPrice := initialPrice, priceTrajectory := final.trajectory,
      finalPrice := finalPriceRaw * priceScale,
      priceImpactPercent :=
        if 0 < initialPriceRaw then
          ((finalPriceRaw - initialPriceRaw) / initialPriceRaw) * 100
        else 0,
      reserveVirtual := final.reserveVirtual, reserveToken := final.reserveToken,
      assumptions := { noExternalSells := mode = SimMode.IDEAL,
                       useCurrentLpReserves := true, mode := mode,
                       sellPressureBpsPerStep := sellPressureBps,
                       priceAnchorSpot := shouldAnchor,
                       spotPriceAnchor :=
                         if shouldAnchor then spotPriceAnchor else none } }

/-- `simulateDump` from the AMM simulator (`part_010` lines 477-519). -/
def simulateDump (reserveVirtual reserveToken sellAmountToken : Int) :
    DumpSimulationResult :=
  if reserveVirtual ≤ 0 ∨ reserveToken ≤ 0 ∨ sellAmountToken ≤ 0 then
    { reserveVirtual := reserveVirtual, reserveToken := reserveToken,
      sellAmountToken := sellAmountToken, virtualOut := 0, initialPrice := 0,
      finalPrice := 0, priceImpactPercent := 0, requiredBuybackVirtual := 0 }
  else
    let k := reserveVirtual * reserveToken
    let newReserveToken := reserveToken + sellAmountToken
    let newReserveVirtual := k.tdiv newReserveToken
    let virtualOut :=
      if newReserveVirtual < reserveVirtual then reserveVirtual - newReserveVirtual
      else 0
    let initialPrice := (reserveVirtual : ℚ) / (reserveToken : ℚ)
    let finalPrice := (newReserveVirtual : ℚ) / (newReserveToken : ℚ)
    { reserveVirtual := reserveVirtual, reserveToken := reserveToken,
      sellAmountToken := sellAmountToken, virtualOut := virtualOut,
      initialPrice := initialPrice, finalPrice := finalPrice,
      priceImpactPercent :=
        if 0 < initialPrice then ((finalPrice - initialPrice) / initialPrice) * 100
        else 0,
      requiredBuybackVirtual :=
        if newReserveVirtual < reserveVirtual then reserveVirtual - newReserveVirtual
        else 0 }

/-- A per-address running cost-basis row (`address_costs` table).  The
`spentQuoteGross` column holds the NET spend under a legacy name (see the
comment block atop `updateAddressCost` in the source); it is called
`spentQuoteNet` here, and `spentQuoteGrossActual` is the user's gross
outlay. -/
structure AddressCostRow where
  spentQuoteNet : Int
  spentQuoteGrossActual : Int
  tokensReceived : Int
  tokensSold : Int
  quoteReceived : Int
  avgCost : Option ℚ
  avgCostGross : Option ℚ
deriving Repr, DecidableEq

/-- The zero row created when an address is first seen. -/
def emptyAddressCostRow : AddressCostRow :=
  { spentQuoteNet := 0, spentQuoteGrossActual := 0, tokensReceived := 0,
    tokensSold := 0, quoteReceived := 0, avgCost := none, avgCostGross := none }

/-- `updateAddressCost` (`part_010` lines 100-179) as a pure update of the
address's row by a single trade: BUY (with both `quoteIn` and `tokenOut`
present) adds to net spend, gross spend (falling back to net when the gross
field is null) and tokens received; SELL (with both `tokenIn` and `quoteOut`
present) adds to tokens sold and quote received; the running averages are
recomputed over cumulative totals. -/
def updateAddressCost (row : AddressCostRow) (t : Trade) : AddressCostRow :=
  let buyPart : Int × Int × Int :=
    match t.side, t.quoteIn, t.tokenOut with
    | Side.BUY, some qi, some tOut =>
      (row.spentQuoteNet + qi,
       row.spentQuoteGrossActual + t.quoteInGross.getD qi,
       row.tokensReceived + tOut)
    | _, _, _ => (row.spentQuoteNet, row.spentQuoteGrossActual, row.tokensReceived)
  let sellPart : Int × Int :=
    match t.side, t.tokenIn, t.quoteOut with
    | Side.SELL, some tIn, some qo =>
      (row.tokensSold + tIn, row.quoteReceived + qo)
    | _, _, _ => (row.tokensSold, row.quoteReceived)
  { spentQuoteNet := buyPart.1, spentQuoteGrossActual := buyPart.2.1,
    tokensReceived := buyPart.2.2, tokensSold := sellPart.1,
    quoteReceived := sellPart.2,
    avgCost :=
      if 0 < buyPart.2.2 then some ((buyPart.1 : ℚ) / (buyPart.2.2 : ℚ)) else none,
    avgCostGross :=
      if 0 < buyPart.2.2 then some ((buyPart.2.1 : ℚ) / (buyPart.2.2 : ℚ)) else none }

/-- `soldCostGross` of `computeCostSummary` (`part_010` lines 245-246): the
pro-rated gross cost of the sold portion,
`spent × tokensSold / tokensReceived` with truncating `bigint` division. -/
def soldCostGross (row : AddressCostRow) : Int :=
  if 0 < row.tokensSold then
    (row.spentQuoteGrossActual * row.tokensSold).tdiv row.tokensReceived
  else 0

/-- `remainingTokens` of `computeCostSummary` (`part_010` lines 241-242). -/
def remainingTokensOf (row : AddressCostRow) : Int :=
  if row.tokensSold < row.tokensReceived then row.tokensReceived - row.tokensSold
  else 0

/-- `remainingCostGross` of `computeCostSummary` (`part_010` lines 247-248):
`spent − soldCost`, floored at zero. -/
def remainingCostFloor (row : AddressCostRow) : Int :=
  if soldCostGross row < row.spentQuoteGrossActual then
    row.spentQuoteGrossActual - soldCostGross row
  else 0

/-- The per-row open-position remaining cost computed by `computeCostSummary`
(`part_010` lines 239-248): `none` when the row fails the guards
(`tokensReceived ≤ 0`, or no remaining tokens), otherwise the pro-rated
remaining gross cost floored at zero. -/
def openRemainingCostGross (row : AddressCostRow) : Option Int :=
  if row.tokensReceived ≤ 0 then none
  else if remainingTokensOf row ≤ 0 then none
  else some (remainingCostFloor row)

/-- `GraduationResult` from `src/indexer/graduation.ts`. -/
structure GraduationResult where
  graduated : Bool
  pairAddress : Option Addr
  token0 : Option Addr
  token1 : Option Addr
deriving Repr, DecidableEq

/-- The pair contract's `token0`/`token1`/`getReserves` read results. -/
structure PairView where
  token0 : Addr
  token1 : Addr
  reserve0 : Int
  reserve1 : Int
deriving Repr, DecidableEq

/-- The chain reads `checkGraduation` performs, as an explicit view:
`uniswapV2Pair` is the accessor on the token contract (`none` models a
revert or missing function), `hasCode` is `isContract`, and `pairView`
bundles the three pair reads (`none` models any of them reverting). -/
structure GradChainView where
  uniswapV2Pair : Option Addr
  hasCode : Addr → Bool
  pairView : Addr → Option PairView

def ZERO_ADDRESS : Addr := 0

/-- The not-graduated result with no pair information. -/
def noGraduation : GraduationResult :=
  { graduated := false, pairAddress := none, token0 := none, token1 := none }

/-- `checkGraduation` from `src/indexer/graduation.ts`: read the pair
accessor (zero/absent address means not graduated), verify the pair has
code, read `token0`/`token1`/`getReserves` (any revert means not graduated
via the surrounding `catch`), and treat a pair whose reserves are BOTH zero
as pre-created but not yet liquid. -/
def checkGraduation (chain : GradChainView) : GraduationResult :=
  match chain.uniswapV2Pair with
  | none => noGraduation
  | some pairAddress =>
    if pairAddress = ZERO_ADDRESS then noGraduation
    else if chain.hasCode pairAddress then
      match chain.pairView pairAddress with
      | none => noGraduation
      | some pv =>
        if pv.reserve0 = 0 ∧ pv.reserve1 = 0 then
          { graduated := false, pairAddress := some pairAddress,
            token0 := some pv.token0, token1 := some pv.token1 }
        else
          { graduated := true, pairAddress := some pairAddress,
            token0 := some pv.token0, token1 := some pv.token1 }
    else noGraduation

/-- A domain event published to the event bus by `processBlockRange` (the
`WsTrade` and `WsWhaleAlert` payloads of `part_008`, restricted to the
fields the orchestrator fills in). -/
inductive WsEvent where
  | tradeEvent (projectId : Nat) (t : Trade)
  | whaleAlert (projectId : Nat) (address : Addr) (quoteIn : Int) (side : Side)
deriving Repr, DecidableEq

/-- The `trades` table's composite uniqueness key. -/
abbrev TradeKey := TxHash × Nat

def tradeKey (t : Trade) : TradeKey := (t.txHash, t.logIndex)

/-- The whale-check amount (`part_008` lines 356-360): gross if present,
else net, else 0. -/
def whaleQuoteAmount (t : Trade) : Int :=
  match t.quoteInGross, t.quoteIn with
  | some g, _ => g
  | none, some n => n
  | none, none => 0

/-- State threaded through the per-trade insert loop of `processBlockRange`:
the set of trade keys present in the `trades` table, the trades whose insert
actually changed a row (`insertedInternalTrades`), and the events emitted so
far. -/
structure InsertLoopState where
  dbKeys : List TradeKey
  inserted : List Trade
  events : List WsEvent
deriving Repr, DecidableEq

def isTradeEvent : WsEvent → Bool
  | WsEvent.tradeEvent _ _ => true
  | _ => false

def isWhaleAlert : WsEvent → Bool
  | WsEvent.whaleAlert _ _ _ _ => true
  | _ => false

/-- One iteration of the insert/emit loop (`part_008` lines 337-373): an
idempotent insert (`onConflictDoNothing`, a no-op when the key exists) whose
`changes > 0` outcome appends the trade to the inserted list, followed by an
unconditional trade event and a conditional whale alert - both emitted
outside the `changes > 0` check. -/
def processTradeInsert (whaleThreshold : Int) (projectId : Nat)
    (st : InsertLoopState) (t : Trade) : InsertLoopState :=
  let isNew := tradeKey t ∉ st.dbKeys
  let dbKeys := if isNew then st.dbKeys ++ [tradeKey t] else st.dbKeys
  let inserted := if isNew then st.inserted ++ [t] else st.inserted
  let withTrade := st.events ++ [WsEvent.tradeEvent projectId t]
  let events :=
    if whaleThreshold ≤ whaleQuoteAmount t then
      withTrade ++ [WsEvent.whaleAlert projectId t.trader (whaleQuoteAmount t) t.side]
    else withTrade
  { dbKeys := dbKeys, inserted := inserted, events := events }

/-- The insert/emit loop of `processBlockRange` over a batch of reconstructed
trades, starting from the current `trades`-table key set. -/
def processTradeInserts (whaleThreshold : Int) (projectId : Nat)
    (dbKeys : List TradeKey) (trades : List Trade) : InsertLoopState :=
  trades.foldl (processTradeInsert whaleThreshold projectId)
    { dbKeys := dbKeys, inserted := [], events := [] }

/-- A raw log as the Log Reader sees it: its block number, plus an identity
tag standing for the rest of the payload. -/
structure RawLog where
  blockNumber : Nat
  ident : Nat
deriving Repr, DecidableEq

/-- What an unrestricted `getLogs` over an inclusive block range returns:
the logs of the history lying in the range. -/
def logsInRange (hist : List RawLog) (fromBlock toBlock : Nat) : List RawLog :=
  hist.filter (fun l => fromBlock ≤ l.blockNumber ∧ l.blockNumber ≤ toBlock)

/-- A failure observation recorded by `recordTransferLogFailure` (the
contract address and message are fixed in this setting; the range is
kept). -/
structure LogFailure where
  fromBlock : Nat
  toBlock : Nat
deriving Repr, DecidableEq

/-- The direct-retry loop of `fetchTransferLogs` (`chain/utils.ts` lines
197-217) against the C3 fake provider, which fails exactly when the
requested range holds more logs than `cap`: the provider is deterministic,
so each of the retries (the increasing sleeps have no observable effect
here) repeats the same outcome. -/
def retryGetLogs (cap : Nat) (hist : List RawLog) (fromBlock toBlock : Nat) :
    Nat → Option (List RawLog)
  | 0 => none
  | n + 1 =>
    if (logsInRange hist fromBlock toBlock).length ≤ cap then
      some (logsInRange hist fromBlock toBlock)
    else retryGetLogs cap hist fromBlock toBlock n

/-- `fetchTransferLogs` (`chain/utils.ts` lines 163-234) against the fake
provider, with explicit recursion fuel (the recursion terminates because the
range span shrinks at every split; `fetchTransferLogs` below supplies
sufficient fuel, making the fuel-exhausted branch unreachable): fetch the
range; on a range-too-large failure either retry-then-degrade when the range
spans at most two blocks (`toBlock - fromBlock ≤ 1`) or bisect and combine
both halves.  The result also carries the recorded failure observations. -/
def fetchTransferLogsFuel (cap : Nat) (hist : List RawLog) :
    Nat → Nat → Nat → List RawLog × List LogFailure
  | 0, _, _ => ([], [])
  | fuel + 1, fromBlock, toBlock =>
    if (logsInRange hist fromBlock toBlock).length ≤ cap then
      (logsInRange hist fromBlock toBlock, [])
    else if toBlock - fromBlock ≤ 1 then
      match retryGetLogs cap hist fromBlock toBlock 3 with
      | some logs => (logs, [])
      | none => ([], [⟨fromBlock, toBlock⟩])
    else
      let mid := fromBlock + (toBlock - fromBlock) / 2
      let left := fetchTransferLogsFuel cap hist fuel fromBlock mid
      let right := fetchTransferLogsFuel cap hist fuel (mid + 1) toBlock
      (left.1 ++ right.1, left.2 ++ right.2)

/-- `fetchTransferLogs` with sufficient fuel for its block range. -/
def fetchTransferLogs (cap : Nat) (hist : List RawLog) (fromBlock toBlock : Nat) :
    List RawLog × List LogFailure :=
  fetchTransferLogsFuel cap hist (toBlock - fromBlock + 1) fromBlock toBlock

/-- The transfer-log history of the token as seen by the First-Active-Block
Locator: the block numbers of the token's Transfer events (the algorithm
inspects only `logs.length` and `log.blockNumber`).  The claim's synthetic
provider never fails, so the Log Reader behaves as the plain range filter
and the `catch` branches of `findFirstActiveBlock` are unreachable. -/
def transferBlocksIn (hist : List Nat) (a b : Nat) : List Nat :=
  hist.filter (fun blk => a ≤ blk ∧ blk ≤ b)

/-- The same range fetch with `Int` bounds, as used by the binary-search
phase whose `hi` cursor can reach −1. -/
def transferBlocksInInt (hist : List Nat) (lo hi : Int) : List Nat :=
  hist.filter (fun blk => lo ≤ (blk : Int) ∧ (blk : Int) ≤ hi)

/-- `Math.min(...logs.map(l => l.blockNumber))` over a non-empty fetch
result (the `[]` case is unreachable at its use site). -/
def minBlock : List Nat → Nat
  | [] => 0
  | b :: bs => bs.foldl Nat.min b

/-- Phase 1 of `findFirstActiveBlock` (`first-block.ts` lines 32-65): scan
backwards from the head in windows `[toBlock − windowSize, toBlock]`,
doubling the window (capped at `maxScanWindow`) on every miss, until a
window contains a log; `none` when the scan passes the genesis block
without a hit (`toBlock > 0` fails; natural subtraction models JS's
`Math.max(0, ·)` and the negative `toBlock` exit).  The fuel argument makes
the recursion structural; `findFirstActiveBlock` below supplies enough. -/
def firstBlockScan (hist : List Nat) (maxScanWindow : Nat) :
    Nat → Nat → Nat → Option (Nat × Nat)
  | 0, _, _ => none
  | fuel + 1, toBlock, windowSize =>
    if toBlock = 0 then none
    else
      let fromBlock := toBlock - windowSize
      if (transferBlocksIn hist fromBlock toBlock).isEmpty then
        firstBlockScan hist maxScanWindow fuel (fromBlock - 1)
          (min (windowSize * 2) maxScanWindow)
      else some (fromBlock, toBlock)

/-- Phase 2 of `findFirstActiveBlock` (`first-block.ts` lines 75-104):
binary search on `[lo, hi]`, querying the lower half `[lo, mid]`; a hit
records the minimum block found and narrows `hi` to that block minus one, a
miss sets `lo = mid + 1`; terminates when `lo > hi`, returning the recorded
block.  The cursors are `Int` because `hi` becomes −1 when the earliest
block is 0; `(lo + hi) / 2` for the non-negative in-loop values coincides
with `Math.floor`. -/
def binarySearchFirst (hist : List Nat) :
    Nat → Int → Int → Nat → Nat
  | 0, _, _, firstBlock => firstBlock
  | fuel + 1, lo, hi, firstBlock =>
    if lo ≤ hi then
      let mid := (lo + hi) / 2
      let logs := transferBlocksInInt hist lo mid
      if logs.isEmpty then
        binarySearchFirst hist fuel (mid + 1) hi firstBlock
      else
        binarySearchFirst hist fuel lo ((minBlock logs : Int) - 1) (minBlock logs)
    else firstBlock

/-- `findFirstActiveBlock` from `src/indexer/first-block.ts`: adaptive
backward scan, then binary search within the hit window, with `firstBlock`
seeded at the hit window's upper bound; 0 when the scan finds nothing. -/
def findFirstActiveBlock (hist : List Nat)
    (latestBlock initialScanWindow maxScanWindow : Nat) : Nat :=
  match firstBlockScan hist maxScanWindow (latestBlock + 1) latestBlock
      initialScanWindow with
  | none => 0
  | some (hitFrom, hitTo) =>
    binarySearchFirst hist (hitTo - hitFrom + 2) (hitFrom : Int) (hitTo : Int) hitTo

set_option maxRecDepth 8000

/-- C1: a transaction whose transfers are exactly the token transfer
market→trader of 1000 tokens (log index 0) and the quote transfers
trader→market of 99 and trader→taxAddr of 1 yields exactly one trade, a BUY
with `tokenOut = 1000`, `quoteInGross = 100`, `quoteIn = 99`, and
`priceQuotePerToken = 0.099`.  Here market = 1, trader = 2, taxAddr = 3,
token contract = 77, quote contract = 88, transaction hash = 500. -/
theorem c1_reconstruct_simple_buy :
    reconstructTrades
      [⟨77, 1, 2, 1000, 500, 0, 100⟩]
      [⟨88, 2, 1, 99, 500, 1, 100⟩, ⟨88, 2, 3, 1, 500, 2, 100⟩]
      1 7 Venue.INTERNAL 999 =
    [{ projectId := 7, venue := Venue.INTERNAL, marketAddress := 1,
       txHash := 500, logIndex := 0, blockNumber := 100, ts := 999,
       trader := 2, side := Side.BUY, quoteIn := some 99,
       quoteInGross := some 100, quoteOut := none, tokenIn := none,
       tokenOut := some 1000, priceQuotePerToken := some (99 / 1000 : ℚ) }] := by
  rfl

/-- C2: evaluation of `reconstructTrades` at the failing input.  Market = 1;
trader 2 sends only 10 quote to the market while a third party 4 sends 100 in
the same transaction; the market sends 1000 tokens to trader 2.  The emitted
BUY trade carries `quoteIn = 110` (the market's net quote delta) but
`quoteInGross = 10` (the trader-refined outlay), violating
`quoteIn ≤ quoteInGross`: the trader-specific refinement of the gross amount
is applied after the `gross < net` clamp, so the clamp does not protect the
final value. -/
theorem c2_net_exceeds_gross_at_failing_input :
    reconstructTrades
      [⟨77, 1, 2, 1000, 600, 0, 100⟩]
      [⟨88, 2, 1, 10, 600, 1, 100⟩, ⟨88, 4, 1, 100, 600, 2, 100⟩]
      1 7 Venue.INTERNAL 999 =
    [{ projectId := 7, venue := Venue.INTERNAL, marketAddress := 1,
       txHash := 600, logIndex := 0, blockNumber := 100, ts := 999,
       trader := 2, side := Side.BUY, quoteIn := some 110,
       quoteInGross := some 10, quoteOut := none, tokenIn := none,
       tokenOut := some 1000, priceQuotePerToken := some (110 / 1000 : ℚ) }] ∧
    ¬ ((110 : Int) ≤ 10) := by
  exact ⟨by rfl, by decide⟩

/-- C6 counterexample: the split-tax rule records a leg that does not go to a
launch-path address.  Market = 1 and trader = 2 are derived from the token
transfer; the trader pays 99 quote to the market (main buy leg) and sends 7
quote to address 5, which is neither the market, nor the tax recipient 3, nor
one of the two launch-path addresses; that leg is nevertheless recorded as a
tax inflow, refuting the claim that only trader→launch-path legs are
recorded. -/
theorem c6_split_tax_leg_not_launch_path :
    extractTaxInflows
      [⟨77, 1, 2, 1000, 600, 0, 100⟩]
      [⟨888, 2, 1, 99, 600, 1, 100⟩, ⟨888, 2, 5, 7, 600, 2, 100⟩]
      3 7 999 =
      [{ projectId := 7, txHash := 600, blockNumber := 100, ts := 999,
         token := VIRTUAL_ADDRESS, amount := 7, logIndex := 2 }] ∧
    isLaunchPathAddr 5 = false := by
  exact ⟨by rfl, by decide⟩

/-- C6 amended: the split-tax rule records exactly the trader's
positive-value quote transfers to addresses other than the market and the
tax recipient (not merely to launch-path addresses), where the trader and
market are derived from the transaction's largest token transfer and a
trader→market quote payment leg must exist. -/
theorem c6_split_tax_legs_characterization (recipient : Addr)
    (txTok txVirt : List Transfer) (v : Transfer) :
    v ∈ splitTaxLegs recipient txTok txVirt ↔
      ∃ t0, largestTransfer txTok = some t0 ∧
        (∃ m ∈ txVirt, m.fromAddr = t0.toAddr ∧ m.toAddr = t0.fromAddr ∧ 0 < m.value) ∧
        v ∈ txVirt ∧ v.fromAddr = t0.toAddr ∧ v.toAddr ≠ t0.fromAddr ∧
        v.toAddr ≠ recipient ∧ 0 < v.value := by
  unfold splitTaxLegs
  by_cases he : txVirt.isEmpty
  · rw [List.isEmpty_iff] at he
    subst he
    simp
  · simp only [he, Bool.false_eq_true, if_false]
    cases h0 : largestTransfer txTok with
    | none => simp
    | some t0 =>
      by_cases hm : ∃ m ∈ txVirt, m.fromAddr = t0.toAddr ∧ m.toAddr = t0.fromAddr ∧ 0 < m.value
      · have hany : txVirt.any
            (fun m => decide (m.fromAddr = t0.toAddr ∧ m.toAddr = t0.fromAddr ∧ 0 < m.value)) = true := by
          rw [List.any_eq_true]
          obtain ⟨m, hm1, hm2⟩ := hm
          exact ⟨m, hm1, by simpa using hm2⟩
        simp only [hany, if_true, List.mem_filter]
        constructor
        · rintro ⟨hv, hp⟩
          refine ⟨t0, rfl, hm, hv, ?_⟩
          simpa using hp
        · rintro ⟨t0', ht0', _, hv, hp⟩
          rw [Option.some.injEq] at ht0'
          subst ht0'
          exact ⟨hv, by simpa using hp⟩
      · have hany : txVirt.any
            (fun m => decide (m.fromAddr = t0.toAddr ∧ m.toAddr = t0.fromAddr ∧ 0 < m.value)) = false := by
          rw [Bool.eq_false_iff]
          intro hc
          rw [List.any_eq_true] at hc
          obtain ⟨m, hm1, hm2⟩ := hc
          exact hm ⟨m, hm1, by simpa using hm2⟩
        simp only [hany, Bool.false_eq_true, if_false]
        constructor
        · intro hv
          simp at hv
        · rintro ⟨t0', ht0', hmain, _⟩
          rw [Option.some.injEq] at ht0'
          subst ht0'
          exact absurd hmain hm

/-- C4: in IDEAL mode (sell-pressure basis points = 0, so the synthetic
sell-pressure update is the identity), a single buyback step from positive
reserves `(rv, rt)` with positive buy amount preserves the constant product
up to integer rounding - the post-step product never exceeds `rv * rt`, the
difference is exactly the division remainder `(rv * rt) % (rv + buy)`, which
is less than the new quote reserve - and the reserve-implied price is
non-decreasing across the step (in cross-multiplied form, and as a genuine
`ℚ` price inequality whenever the post-step token reserve is positive); the
step moreover buys a strictly positive token amount, so it is never skipped
by the loop's `tokenOut ≤ 0` guard. -/
theorem c4_buyback_step_invariants (rv rt buy : Int)
    (hrv : 0 < rv) (hrt : 0 < rt) (hbuy : 0 < buy) :
    (∀ a b c : Int, buybackSellPressure 0 a b c = (a, b)) ∧
    (buybackBuyReserves rv rt buy).1 * (buybackBuyReserves rv rt buy).2 ≤ rv * rt ∧
    rv * rt - (buybackBuyReserves rv rt buy).1 * (buybackBuyReserves rv rt buy).2
      = (rv * rt) % (rv + buy) ∧
    (rv * rt) % (rv + buy) < rv + buy ∧
    rv * (buybackBuyReserves rv rt buy).2 ≤ (buybackBuyReserves rv rt buy).1 * rt ∧
    (buybackBuyReserves rv rt buy).2 < rt ∧
    (0 < (buybackBuyReserves rv rt buy).2 →
      (rv : ℚ) / (rt : ℚ) ≤
        ((buybackBuyReserves rv rt buy).1 : ℚ) / ((buybackBuyReserves rv rt buy).2 : ℚ)) := by
  have hideal : ∀ a b c : Int, buybackSellPressure 0 a b c = (a, b) := by
    intro a b c
    simp [buybackSellPressure]
  have hnrv : 0 < rv + buy := by linarith
  have hk : 0 ≤ rv * rt := by positivity
  have htd : (rv * rt).tdiv (rv + buy) = (rv * rt) / (rv + buy) :=
    Int.tdiv_eq_ediv hk (le_of_lt hnrv)
  simp only [buybackBuyReserves, htd]
  have hde : (rv + buy) * ((rv * rt) / (rv + buy)) + (rv * rt) % (rv + buy) = rv * rt :=
    Int.ediv_add_emod _ _
  have hr0 : 0 ≤ (rv * rt) % (rv + buy) := Int.emod_nonneg _ (ne_of_gt hnrv)
  have hrlt : (rv * rt) % (rv + buy) < rv + buy := Int.emod_lt_of_pos _ hnrv
  have hq0 : 0 ≤ (rv * rt) / (rv + buy) := Int.ediv_nonneg hk (le_of_lt hnrv)
  have hqlt : (rv * rt) / (rv + buy) < rt := by
    rw [Int.ediv_lt_iff_lt_mul hnrv]
    nlinarith
  have hcross : rv * ((rv * rt) / (rv + buy)) ≤ (rv + buy) * rt := by
    nlinarith
  refine ⟨hideal, by linarith, by linarith, hrlt, hcross, hqlt, ?_⟩
  intro hqpos
  rw [div_le_div_iff₀ (by exact_mod_cast hrt) (by exact_mod_cast hqpos)]
  exact_mod_cast hcross

/-- C4 witness: the step invariants evaluated at reserves (4, 9) and buy
amount 2, where the updated reserves are (6, 6). -/
theorem c4_buyback_step_invariants_witness :
    (∀ a b c : Int, buybackSellPressure 0 a b c = (a, b)) ∧
    (buybackBuyReserves 4 9 2).1 * (buybackBuyReserves 4 9 2).2 ≤ 4 * 9 ∧
    (4 : Int) * 9 - (buybackBuyReserves 4 9 2).1 * (buybackBuyReserves 4 9 2).2
      = (4 * 9 : Int) % (4 + 2) ∧
    (4 * 9 : Int) % (4 + 2) < 4 + 2 ∧
    (4 : Int) * (buybackBuyReserves 4 9 2).2 ≤ (buybackBuyReserves 4 9 2).1 * 9 ∧
    (buybackBuyReserves 4 9 2).2 < 9 ∧
    (0 < (buybackBuyReserves 4 9 2).2 →
      (4 : ℚ) / (9 : ℚ) ≤
        ((buybackBuyReserves 4 9 2).1 : ℚ) / ((buybackBuyReserves 4 9 2).2 : ℚ)) :=
  c4_buyback_step_invariants 4 9 2 (by decide) (by decide) (by decide)

/-- C10: both AMM simulators return their guard results on degenerate
inputs - `simulateBuyback` returns a zeroed simulation with `steps = 0` and
an empty price trajectory whenever `amountPerStep`, `totalTaxInput`,
`reserve0` or `reserve1` is zero, and `simulateDump` returns the all-zero
result whenever any of its three inputs is ≤ 0 - so no division (and in the
source, no `bigint` division-by-zero throw) is ever reached on these
inputs. -/
theorem c10_amm_degenerate_inputs (reserve0 reserve1 : Int) (isToken0 : Bool)
    (amountPerStep totalTaxInput : Int) (stepIntervalSeconds : Nat) (mode : SimMode)
    (spotPriceAnchor : Option ℚ) (dv dt da : Int)
    (h1 : amountPerStep = 0 ∨ totalTaxInput = 0 ∨ reserve0 = 0 ∨ reserve1 = 0)
    (h2 : dv ≤ 0 ∨ dt ≤ 0 ∨ da ≤ 0) :
    ((simulateBuyback reserve0 reserve1 isToken0 amountPerStep totalTaxInput
        stepIntervalSeconds mode spotPriceAnchor).steps = 0 ∧
     (simulateBuyback reserve0 reserve1 isToken0 amountPerStep totalTaxInput
        stepIntervalSeconds mode spotPriceAnchor).priceTrajectory = [] ∧
     (simulateBuyback reserve0 reserve1 isToken0 amountPerStep totalTaxInput
        stepIntervalSeconds mode spotPriceAnchor).budget = 0 ∧
     (simulateBuyback reserve0 reserve1 isToken0 amountPerStep totalTaxInput
        stepIntervalSeconds mode spotPriceAnchor).totalTokensBought = 0 ∧
     (simulateBuyback reserve0 reserve1 isToken0 amountPerStep totalTaxInput
        stepIntervalSeconds mode spotPriceAnchor).avgPrice = 0 ∧
     (simulateBuyback reserve0 reserve1 isToken0 amountPerStep totalTaxInput
        stepIntervalSeconds mode spotPriceAnchor).initialPrice = 0 ∧
     (simulateBuyback reserve0 reserve1 isToken0 amountPerStep totalTaxInput
        stepIntervalSeconds mode spotPriceAnchor).finalPrice = 0 ∧
     (simulateBuyback reserve0 reserve1 isToken0 amountPerStep totalTaxInput
        stepIntervalSeconds mode spotPriceAnchor).reserveVirtual = 0 ∧
     (simulateBuyback reserve0 reserve1 isToken0 amountPerStep totalTaxInput
        stepIntervalSeconds mode spotPriceAnchor).reserveToken = 0) ∧
    (simulateDump dv dt da =
      { reserveVirtual := dv, reserveToken := dt, sellAmountToken := da,
        virtualOut := 0, initialPrice := 0, finalPrice := 0,
        priceImpactPercent := 0, requiredBuybackVirtual := 0 }) := by
  constructor
  · simp only [simulateBuyback]
    rw [if_pos h1]
    exact ⟨rfl, rfl, rfl, rfl, rfl, rfl, rfl, rfl, rfl⟩
  · simp only [simulateDump]
    rw [if_pos h2]

/-- C10 witness: the degenerate-input behaviour evaluated at
`reserve0 = 0` for the buyback simulator and `reserveVirtual = 0` for the
dump simulator. -/
theorem c10_amm_degenerate_inputs_witness :
    ((simulateBuyback 0 5 true 3 7 60 SimMode.IDEAL none).steps = 0 ∧
     (simulateBuyback 0 5 true 3 7 60 SimMode.IDEAL none).priceTrajectory = [] ∧
     (simulateBuyback 0 5 true 3 7 60 SimMode.IDEAL none).budget = 0 ∧
     (simulateBuyback 0 5 true 3 7 60 SimMode.IDEAL none).totalTokensBought = 0 ∧
     (simulateBuyback 0 5 true 3 7 60 SimMode.IDEAL none).avgPrice = 0 ∧
     (simulateBuyback 0 5 true 3 7 60 SimMode.IDEAL none).initialPrice = 0 ∧
     (simulateBuyback 0 5 true 3 7 60 SimMode.IDEAL none).finalPrice = 0 ∧
     (simulateBuyback 0 5 true 3 7 60 SimMode.IDEAL none).reserveVirtual = 0 ∧
     (simulateBuyback 0 5 true 3 7 60 SimMode.IDEAL none).reserveToken = 0) ∧
    (simulateDump 0 5 2 =
      { reserveVirtual := 0, reserveToken := 5, sellAmountToken := 2,
        virtualOut := 0, initialPrice := 0, finalPrice := 0,
        priceImpactPercent := 0, requiredBuybackVirtual := 0 }) :=
  c10_amm_degenerate_inputs 0 5 true 3 7 60 SimMode.IDEAL none 0 5 2
    (Or.inr (Or.inr (Or.inl rfl))) (Or.inl (by decide))

/-- C5 counterexample: a pair contract whose reserves are `(0, 5)` - a zero
on one side only - is reported as graduated.  The code's liquidity test
(`graduation.ts` line 69) fires only when BOTH reserves are zero, so the
claim "a zero on either side means not-graduated" is false on this input. -/
theorem c5_one_sided_zero_reserve_graduates :
    (checkGraduation
      { uniswapV2Pair := some 10, hasCode := fun _ => true,
        pairView := fun _ =>
          some { token0 := 77, token1 := 888, reserve0 := 0, reserve1 := 5 } }).graduated
      = true := rfl

/-- C5 amended: `checkGraduation` reports graduated exactly when the pair
accessor returns a nonzero address that is a contract, all pair reads
succeed, and the reserves are not BOTH zero; in particular a pair with both
reserves zero is never graduated, but a zero reserve on only one side does
not prevent graduation. -/
theorem c5_graduated_iff (chain : GradChainView) :
    (checkGraduation chain).graduated = true ↔
      ∃ p pv, chain.uniswapV2Pair = some p ∧ p ≠ ZERO_ADDRESS ∧
        chain.hasCode p = true ∧ chain.pairView p = some pv ∧
        ¬ (pv.reserve0 = 0 ∧ pv.reserve1 = 0) := by
  constructor
  · intro hg
    unfold checkGraduation at hg
    cases hp : chain.uniswapV2Pair with
    | none =>
      rw [hp] at hg
      simp [noGraduation] at hg
    | some p =>
      rw [hp] at hg
      by_cases hz : p = ZERO_ADDRESS
      · simp [hz, noGraduation] at hg
      · by_cases hc : chain.hasCode p
        · cases hv : chain.pairView p with
          | none =>
            simp [hz, hc, hv, noGraduation] at hg
          | some pv =>
            by_cases hr : pv.reserve0 = 0 ∧ pv.reserve1 = 0
            · simp [hz, hc, hv, hr] at hg
            · exact ⟨p, pv, rfl, hz, hc, hv, hr⟩
        · simp [hz, hc, noGraduation] at hg
  · rintro ⟨p, pv, hp, hz, hc, hv, hr⟩
    unfold checkGraduation
    simp [hp, hz, hc, hv, hr]

/-- C7: for every sequence of BUY/SELL trades folded into the Cost Ledger -
`tokensSold ≤ tokensReceived` is never assumed, and a SELL with no prior BUY
is allowed - whenever `computeCostSummary`'s per-row open-position remaining
cost is computed at all, it is non-negative, because the formula
`spent − spent × tokensSold / tokensReceived` is floored at zero. -/
theorem c7_remaining_cost_nonneg (trades : List Trade) (r : Int)
    (h : openRemainingCostGross (trades.foldl updateAddressCost emptyAddressCostRow) = some r) :
    0 ≤ r := by
  unfold openRemainingCostGross at h
  split at h
  · exact absurd h (by simp)
  · split at h
    · exact absurd h (by simp)
    · rw [Option.some.injEq] at h
      rw [← h]
      unfold remainingCostFloor
      split
      · rename_i hlt
        linarith
      · exact le_refl 0

/-- C7 witness: after a BUY of 100 tokens for 10 gross quote and a SELL of
40 tokens, the remaining cost computes to `10 − 10×40/100 = 6 ≥ 0`. -/
theorem c7_remaining_cost_nonneg_witness : (0 : Int) ≤ 6 :=
  c7_remaining_cost_nonneg
    [{ projectId := 7, venue := Venue.INTERNAL, marketAddress := 1, txHash := 500,
       logIndex := 0, blockNumber := 100, ts := 999, trader := 2, side := Side.BUY,
       quoteIn := some 10, quoteInGross := some 10, quoteOut := none, tokenIn := none,
       tokenOut := some 100, priceQuotePerToken := some (1 / 10 : ℚ) },
     { projectId := 7, venue := Venue.INTERNAL, marketAddress := 1, txHash := 501,
       logIndex := 0, blockNumber := 101, ts := 1000, trader := 2, side := Side.SELL,
       quoteIn := none, quoteInGross := none, quoteOut := some 5, tokenIn := some 40,
       tokenOut := none, priceQuotePerToken := some (1 / 8 : ℚ) }]
    6 (by rfl)

/-- Helper: the insert/emit loop appends exactly one trade event per
processed trade candidate, regardless of whether the insert changed a row. -/
theorem insertLoop_tradeEvent_count (T : Int) (pid : Nat) (trades : List Trade)
    (st : InsertLoopState) :
    ((trades.foldl (processTradeInsert T pid) st).events.filter isTradeEvent).length
      = (st.events.filter isTradeEvent).length + trades.length := by
  induction trades generalizing st with
  | nil => simp
  | cons t ts ih =>
    rw [List.foldl_cons, ih]
    have hstep : (((processTradeInsert T pid st t).events.filter isTradeEvent)).length
        = (st.events.filter isTradeEvent).length + 1 := by
      unfold processTradeInsert
      by_cases hw : T ≤ whaleQuoteAmount t
      · simp [hw, List.filter_append, isTradeEvent, isWhaleAlert]
      · simp [hw, List.filter_append, isTradeEvent]
    rw [hstep]
    simp only [List.length_cons]
    omega

/-- Helper: the insert/emit loop appends exactly one whale alert per
processed trade candidate whose whale-check amount reaches the threshold,
regardless of insertion outcome. -/
theorem insertLoop_whale_count (T : Int) (pid : Nat) (trades : List Trade)
    (st : InsertLoopState) :
    ((trades.foldl (processTradeInsert T pid) st).events.filter isWhaleAlert).length
      = (st.events.filter isWhaleAlert).length
        + (trades.filter (fun t => T ≤ whaleQuoteAmount t)).length := by
  induction trades generalizing st with
  | nil => simp
  | cons t ts ih =>
    rw [List.foldl_cons, ih]
    by_cases hw : T ≤ whaleQuoteAmount t
    · have hstep : (((processTradeInsert T pid st t).events.filter isWhaleAlert)).length
          = (st.events.filter isWhaleAlert).length + 1 := by
        unfold processTradeInsert
        simp [hw, List.filter_append, isTradeEvent, isWhaleAlert]
      rw [hstep, List.filter_cons_of_pos (by simpa using hw)]
      simp only [List.length_cons]
      omega
    · have hstep : (((processTradeInsert T pid st t).events.filter isWhaleAlert)).length
          = (st.events.filter isWhaleAlert).length := by
        unfold processTradeInsert
        simp [hw, List.filter_append, isTradeEvent, isWhaleAlert]
      rw [hstep, List.filter_cons_of_neg (by simpa using hw)]

/-- Helper: with pairwise-distinct keys in the batch, the trades recorded as
newly inserted are exactly those whose key was absent from the table. -/
theorem insertLoop_inserted_eq (T : Int) (pid : Nat) (trades : List Trade)
    (st : InsertLoopState) (hnd : (trades.map tradeKey).Nodup) :
    (trades.foldl (processTradeInsert T pid) st).inserted
      = st.inserted ++ trades.filter (fun t => tradeKey t ∉ st.dbKeys) := by
  induction trades generalizing st with
  | nil => simp
  | cons t ts ih =>
    rw [List.map_cons, List.nodup_cons] at hnd
    obtain ⟨hkt, hnd'⟩ := hnd
    rw [List.foldl_cons, ih _ hnd']
    by_cases hnew : tradeKey t ∉ st.dbKeys
    · have hdb : (processTradeInsert T pid st t).dbKeys = st.dbKeys ++ [tradeKey t] := by
        unfold processTradeInsert
        simp [hnew]
      have hins : (processTradeInsert T pid st t).inserted = st.inserted ++ [t] := by
        unfold processTradeInsert
        simp [hnew]
      rw [hdb, hins]
      have hfil : ts.filter (fun u => tradeKey u ∉ st.dbKeys ++ [tradeKey t])
          = ts.filter (fun u => tradeKey u ∉ st.dbKeys) := by
        apply List.filter_congr
        intro u hu
        have hne : tradeKey u ≠ tradeKey t := by
          intro he
          exact hkt (he ▸ List.mem_map_of_mem tradeKey hu)
        simp [List.mem_append, hne]
      rw [hfil, List.filter_cons_of_pos (by simpa using hnew)]
      simp
    · push_neg at hnew
      have hdb : (processTradeInsert T pid st t).dbKeys = st.dbKeys := by
        unfold processTradeInsert
        simp [hnew]
      have hins : (processTradeInsert T pid st t).inserted = st.inserted := by
        unfold processTradeInsert
        simp [hnew]
      rw [hdb, hins, List.filter_cons_of_neg (by simp [hnew])]

/-- C9 counterexample: re-processing a trade whose key is already in the
`trades` table (a duplicate-key no-op insert) still emits a trade event - the
emission in `processBlockRange` is outside the `changes > 0` check - so the
claim that no event is emitted for a duplicate insert is false. -/
theorem c9_duplicate_insert_still_emits :
    processTradeInserts 1000000 7 [(500, 0)]
      [{ projectId := 7, venue := Venue.INTERNAL, marketAddress := 1, txHash := 500,
         logIndex := 0, blockNumber := 100, ts := 999, trader := 2, side := Side.BUY,
         quoteIn := some 99, quoteInGross := some 100, quoteOut := none, tokenIn := none,
         tokenOut := some 1000, priceQuotePerToken := some (99 / 1000 : ℚ) }] =
    { dbKeys := [(500, 0)], inserted := [],
      events := [WsEvent.tradeEvent 7
        { projectId := 7, venue := Venue.INTERNAL, marketAddress := 1, txHash := 500,
          logIndex := 0, blockNumber := 100, ts := 999, trader := 2, side := Side.BUY,
          quoteIn := some 99, quoteInGross := some 100, quoteOut := none, tokenIn := none,
          tokenOut := some 1000, priceQuotePerToken := some (99 / 1000 : ℚ) }] } := by
  rfl

/-- C9 amended: during the orchestrator's block processing, one trade event
is emitted per reconstructed trade candidate regardless of insertion outcome
(so re-processing an already-indexed range re-emits events), and one whale
alert per candidate whose gross (falling back to net) quote amount reaches
the threshold; only the Cost Ledger input - the inserted-trades list - is
restricted to trades whose key was newly added. -/
theorem c9_amended_events_per_candidate (T : Int) (pid : Nat)
    (dbKeys : List TradeKey) (trades : List Trade)
    (hnd : (trades.map tradeKey).Nodup) :
    ((processTradeInserts T pid dbKeys trades).events.filter isTradeEvent).length
        = trades.length ∧
    (processTradeInserts T pid dbKeys trades).inserted
        = trades.filter (fun t => tradeKey t ∉ dbKeys) ∧
    ((processTradeInserts T pid dbKeys trades).events.filter isWhaleAlert).length
        = (trades.filter (fun t => T ≤ whaleQuoteAmount t)).length := by
  unfold processTradeInserts
  refine ⟨?_, ?_, ?_⟩
  · rw [insertLoop_tradeEvent_count]
    simp
  · rw [insertLoop_inserted_eq _ _ _ _ hnd]
    simp
  · rw [insertLoop_whale_count]
    simp

/-- C9 witness: a batch of two trades - one whose key is already indexed, one
new - emits exactly two trade events. -/
theorem c9_amended_events_per_candidate_witness :
    ((processTradeInserts 50 7 [(500, 0)]
        [{ projectId := 7, venue := Venue.INTERNAL, marketAddress := 1, txHash := 500,
           logIndex := 0, blockNumber := 100, ts := 999, trader := 2, side := Side.BUY,
           quoteIn := some 99, quoteInGross := some 100, quoteOut := none, tokenIn := none,
           tokenOut := some 1000, priceQuotePerToken := some (99 / 1000 : ℚ) },
         { projectId := 7, venue := Venue.INTERNAL, marketAddress := 1, txHash := 501,
           logIndex := 0, blockNumber := 101, ts := 1000, trader := 2, side := Side.BUY,
           quoteIn := some 10, quoteInGross := some 10, quoteOut := none, tokenIn := none,
           tokenOut := some 7, priceQuotePerToken := some (10 / 7 : ℚ) }]).events.filter
        isTradeEvent).length = 2 := by
  have h := c9_amended_events_per_candidate 50 7 [(500, 0)]
    [{ projectId := 7, venue := Venue.INTERNAL, marketAddress := 1, txHash := 500,
       logIndex := 0, blockNumber := 100, ts := 999, trader := 2, side := Side.BUY,
       quoteIn := some 99, quoteInGross := some 100, quoteOut := none, tokenIn := none,
       tokenOut := some 1000, priceQuotePerToken := some (99 / 1000 : ℚ) },
     { projectId := 7, venue := Venue.INTERNAL, marketAddress := 1, txHash := 501,
       logIndex := 0, blockNumber := 101, ts := 1000, trader := 2, side := Side.BUY,
       quoteIn := some 10, quoteInGross := some 10, quoteOut := none, tokenIn := none,
       tokenOut := some 7, priceQuotePerToken := some (10 / 7 : ℚ) }]
    (by decide)
  exact h.1

/-- Helper: filtering with a weaker predicate keeps at least as many
elements. -/
theorem length_filter_mono {α : Type} (l : List α) (p q : α → Bool)
    (h : ∀ x, p x = true → q x = true) :
    (l.filter p).length ≤ (l.filter q).length :=
  (List.monotone_filter_right l h).length_le

/-- Helper: concatenating the filters of two disjoint predicates is a
permutation of the filter of their union. -/
theorem filter_union_perm {α : Type} (l : List α) (p q : α → Bool)
    (hdisj : ∀ x, p x = true → q x = false) :
    (l.filter p ++ l.filter q).Perm (l.filter (fun x => p x || q x)) := by
  induction l with
  | nil => simp
  | cons x xs ih =>
    by_cases hp : p x = true
    · have hq : q x = false := hdisj x hp
      simp only [List.filter_cons, hp, hq, Bool.true_or, if_true,
        Bool.false_eq_true, if_false]
      exact ih.cons x
    · rw [Bool.not_eq_true] at hp
      by_cases hq : q x = true
      · simp only [List.filter_cons, hp, hq, Bool.false_or, if_true,
          Bool.false_eq_true, if_false]
        exact List.perm_middle.trans (ih.cons x)
      · rw [Bool.not_eq_true] at hq
        simp only [List.filter_cons, hp, hq, Bool.false_or, Bool.false_eq_true,
          if_false]
        exact ih

/-- Helper: an inverted range holds no logs. -/
theorem logsInRange_nil_of_lt (hist : List RawLog) (a b : Nat) (h : b < a) :
    logsInRange hist a b = [] := by
  unfold logsInRange
  apply List.filter_eq_nil_iff.mpr
  intro l _
  simp only [decide_eq_true_eq]
  omega

/-- Helper: the fuelled Log Reader returns exactly the unrestricted fetch and
records no failure, for any subrange of a region in which every two
consecutive blocks hold at most `cap` logs. -/
theorem fetchFuel_ok (cap : Nat) (hist : List RawLog) (alo bhi : Nat)
    (hpair : ∀ k, alo ≤ k → k ≤ bhi → (logsInRange hist k (k + 1)).length ≤ cap) :
    ∀ fuel a b, alo ≤ a → b ≤ bhi → b - a < fuel →
      (fetchTransferLogsFuel cap hist fuel a b).1.Perm (logsInRange hist a b) ∧
      (fetchTransferLogsFuel cap hist fuel a b).2 = [] := by
  intro fuel
  induction fuel with
  | zero => intro a b _ _ hf; omega
  | succ n ih =>
    intro a b ha hb hf
    unfold fetchTransferLogsFuel
    by_cases hcount : (logsInRange hist a b).length ≤ cap
    · rw [if_pos hcount]
      exact ⟨List.Perm.refl _, rfl⟩
    · rw [if_neg hcount]
      by_cases hsmall : b - a ≤ 1
      · exfalso
        by_cases hab : b < a
        · rw [logsInRange_nil_of_lt hist a b hab] at hcount
          simp at hcount
        · push_neg at hab
          apply hcount
          calc (logsInRange hist a b).length
              ≤ (logsInRange hist a (a + 1)).length := by
                apply length_filter_mono
                intro x hx
                simp only [decide_eq_true_eq] at hx ⊢
                omega
            _ ≤ cap := hpair a ha (by omega)
      · rw [if_neg hsmall]
        push_neg at hsmall
        have hl := ih a (a + (b - a) / 2) ha (by omega) (by omega)
        have hr := ih (a + (b - a) / 2 + 1) b (by omega) hb (by omega)
        constructor
        · refine (hl.1.append hr.1).trans ?_
          have hu := filter_union_perm hist
            (fun l => decide (a ≤ l.blockNumber ∧ l.blockNumber ≤ a + (b - a) / 2))
            (fun l => decide (a + (b - a) / 2 + 1 ≤ l.blockNumber ∧ l.blockNumber ≤ b))
            (by
              intro x hx
              simp only [decide_eq_true_eq] at hx
              simp only [decide_eq_false_iff_not]
              omega)
          refine hu.trans ?_
          unfold logsInRange
          apply List.Perm.of_eq
          apply List.filter_congr
          intro x _
          show (decide (a ≤ x.blockNumber ∧ x.blockNumber ≤ a + (b - a) / 2) ||
              decide (a + (b - a) / 2 + 1 ≤ x.blockNumber ∧ x.blockNumber ≤ b)) =
            decide (a ≤ x.blockNumber ∧ x.blockNumber ≤ b)
          rw [← Bool.decide_or, decide_eq_decide]
          omega
        · show (fetchTransferLogsFuel cap hist n a (a + (b - a) / 2)).2 ++
              (fetchTransferLogsFuel cap hist n (a + (b - a) / 2 + 1) b).2 = []
          rw [hl.2, hr.2]
          rfl

/-- C3 counterexample: with threshold 1 and one log in each of the two
consecutive blocks 5 and 6, the range [5, 6] fails (2 logs > 1), but
`toBlock - fromBlock ≤ 1` stops the bisection at this TWO-block range - not
at single blocks as the claim describes - so the reader retries, degrades to
an empty result and records a failure observation, instead of returning the
two logs an unrestricted fetch yields.  Each single block holds at most one
log, so even per-block compliance with the threshold does not save the
claim. -/
theorem c3_two_block_collapse_degrades :
    fetchTransferLogs 1 [⟨5, 0⟩, ⟨6, 1⟩] 5 6 = ([], [⟨5, 6⟩]) ∧
    logsInRange [⟨5, 0⟩, ⟨6, 1⟩] 5 6 = [⟨5, 0⟩, ⟨6, 1⟩] := ⟨rfl, rfl⟩

/-- C3 amended: given the fake provider failing exactly above the log-count
threshold, if every window of two consecutive blocks within the requested
region holds at most `cap` logs, `fetchTransferLogs` returns exactly the
logs of a single unrestricted fetch over the full range (as a multiset; the
bisection stops at ranges of at most two blocks) and records no failure
observation. -/
theorem c3_split_matches_unrestricted_fetch (cap : Nat) (hist : List RawLog)
    (a b : Nat)
    (hpair : ∀ k ≤ b, a ≤ k → (logsInRange hist k (k + 1)).length ≤ cap) :
    (fetchTransferLogs cap hist a b).1.Perm (logsInRange hist a b) ∧
    (fetchTransferLogs cap hist a b).2 = [] := by
  unfold fetchTransferLogs
  exact fetchFuel_ok cap hist a b (fun k hk1 hk2 => hpair k hk2 hk1)
    (b - a + 1) a b le_rfl le_rfl (by omega)

/-- C3 witness: threshold 1, logs in blocks 5 and 9, range [4, 10] - the
full range fails and is bisected; the result matches the unrestricted fetch
with no failures. -/
theorem c3_split_matches_unrestricted_fetch_witness :
    (fetchTransferLogs 1 [⟨5, 0⟩, ⟨9, 1⟩] 4 10).1.Perm
        (logsInRange [⟨5, 0⟩, ⟨9, 1⟩] 4 10) ∧
    (fetchTransferLogs 1 [⟨5, 0⟩, ⟨9, 1⟩] 4 10).2 = [] :=
  c3_split_matches_unrestricted_fetch 1 [⟨5, 0⟩, ⟨9, 1⟩] 4 10 (by decide)

/-- C8 counterexample: with transfers at blocks 12345 and 1000000 (earliest
12345, none before it), chain head 1000000, initial window 50 and window cap
100000, the first backward-scan window `[999950, 1000000]` already contains
the block-1000000 transfer, so the binary search runs inside that window
only and returns 1000000, not 12345.  The claim's "regardless of the
initial scan-window size" fails for any window too small to reach back to
block 12345 before the first hit. -/
theorem c8_hit_window_can_miss_earliest :
    findFirstActiveBlock [12345, 1000000] 1000000 50 100000 = 1000000 ∧
    (1000000 : Nat) ≠ 12345 := by
  exact ⟨by rfl, by decide⟩

/-- Helper: over a non-empty history whose transfers all sit in block `c`, a
window fetch is empty exactly when the window misses `c`. -/
theorem transferBlocksIn_all_eq_empty_iff (hist : List Nat) (c : Nat)
    (hne : hist ≠ []) (hall : ∀ blk ∈ hist, blk = c) (a b : Nat) :
    (transferBlocksIn hist a b).isEmpty = true ↔ ¬ (a ≤ c ∧ c ≤ b) := by
  unfold transferBlocksIn
  rw [List.isEmpty_iff, List.filter_eq_nil_iff]
  constructor
  · intro h hc
    obtain ⟨x, hx⟩ := List.exists_mem_of_ne_nil hist hne
    apply h x hx
    rw [hall x hx]
    simpa using hc
  · intro h x hx
    rw [hall x hx]
    simp only [decide_eq_true_eq]
    exact h

/-- Helper: the `Int`-bounded variant of the previous lemma. -/
theorem transferBlocksInInt_all_eq_empty_iff (hist : List Nat) (c : Nat)
    (hne : hist ≠ []) (hall : ∀ blk ∈ hist, blk = c) (lo hi : Int) :
    (transferBlocksInInt hist lo hi).isEmpty = true ↔
      ¬ (lo ≤ (c : Int) ∧ (c : Int) ≤ hi) := by
  unfold transferBlocksInInt
  rw [List.isEmpty_iff, List.filter_eq_nil_iff]
  constructor
  · intro h hc
    obtain ⟨x, hx⟩ := List.exists_mem_of_ne_nil hist hne
    apply h x hx
    rw [hall x hx]
    simpa using hc
  · intro h x hx
    rw [hall x hx]
    simp only [decide_eq_true_eq]
    exact h

/-- Helper: folding `Nat.min` from `c` over an all-`c` list yields `c`. -/
theorem foldl_min_all_eq (c : Nat) : ∀ (bs : List Nat), (∀ x ∈ bs, x = c) →
    bs.foldl Nat.min c = c
  | [], _ => rfl
  | x :: xs, hall => by
    have hx : x = c := hall x (by simp)
    subst hx
    have hmm : Nat.min x x = x := by simp [Nat.min_def]
    rw [List.foldl_cons, hmm]
    exact foldl_min_all_eq x xs (fun y hy => hall y (by simp [hy]))

/-- Helper: the minimum block of a non-empty all-`c` list is `c`. -/
theorem minBlock_all_eq (l : List Nat) (c : Nat) (hne : l ≠ [])
    (hall : ∀ b ∈ l, b = c) : minBlock l = c := by
  cases l with
  | nil => exact absurd rfl hne
  | cons b bs =>
    have hb : b = c := hall b (by simp)
    subst hb
    unfold minBlock
    exact foldl_min_all_eq b bs (fun y hy => hall y (by simp [hy]))

/-- Helper: over a history whose transfers all sit in block `c > 0`, the
backward scan always returns a hit window covering `c` - the downward
windows tile the block range without gaps, so the first window reaching down
to `c` is a hit. -/
theorem firstBlockScan_finds (hist : List Nat) (c maxW : Nat)
    (hne : hist ≠ []) (hall : ∀ blk ∈ hist, blk = c) (hc : 0 < c) :
    ∀ fuel toBlock w, c ≤ toBlock → toBlock - c < fuel →
      ∃ f t, firstBlockScan hist maxW fuel toBlock w = some (f, t) ∧
        f ≤ c ∧ c ≤ t ∧ f ≤ t := by
  intro fuel
  induction fuel with
  | zero => intro toBlock w hct hf; omega
  | succ n ih =>
    intro toBlock w hct hf
    unfold firstBlockScan
    rw [if_neg (by omega : ¬ toBlock = 0)]
    by_cases hcover : toBlock - w ≤ c
    · have hnonempty : (transferBlocksIn hist (toBlock - w) toBlock).isEmpty = false := by
        rw [Bool.eq_false_iff]
        intro he
        rw [transferBlocksIn_all_eq_empty_iff hist c hne hall] at he
        exact he ⟨hcover, hct⟩
      simp only [hnonempty, Bool.false_eq_true, if_false]
      exact ⟨toBlock - w, toBlock, rfl, hcover, hct, by omega⟩
    · push_neg at hcover
      have hempty : (transferBlocksIn hist (toBlock - w) toBlock).isEmpty = true := by
        rw [transferBlocksIn_all_eq_empty_iff hist c hne hall]
        omega
      simp only [hempty, if_true]
      exact ih (toBlock - w - 1) (min (w * 2) maxW) (by omega) (by omega)

/-- Helper: once `hi` has been narrowed below block `c`, every further query
of `[lo, mid]` with `mid ≤ hi < c` is a miss, so the recorded block is
returned unchanged. -/
theorem binarySearch_after_hit (hist : List Nat) (c : Nat)
    (hne : hist ≠ []) (hall : ∀ blk ∈ hist, blk = c) :
    ∀ fuel (lo hi : Int) fb, hi < (c : Int) → (hi + 1 - lo).toNat < fuel →
      binarySearchFirst hist fuel lo hi fb = fb := by
  intro fuel
  induction fuel with
  | zero => intro lo hi fb hhi hf; omega
  | succ n ih =>
    intro lo hi fb hhi hf
    unfold binarySearchFirst
    by_cases hlh : lo ≤ hi
    · rw [if_pos hlh]
      have hmid1 : lo ≤ (lo + hi) / 2 := by omega
      have hmid2 : (lo + hi) / 2 ≤ hi := by omega
      have hempty : (transferBlocksInInt hist lo ((lo + hi) / 2)).isEmpty = true := by
        rw [transferBlocksInInt_all_eq_empty_iff hist c hne hall]
        omega
      simp only [hempty, if_true]
      exact ih ((lo + hi) / 2 + 1) hi fb hhi (by omega)
    · rw [if_neg hlh]

/-- Helper: the binary search over `[lo, hi]` with `lo ≤ c ≤ hi` returns
exactly `c` for an all-`c` history: misses raise `lo` while it is at most
`c`, the first hit records `c` and drops `hi` below `c`, after which the
recorded value survives to termination. -/
theorem binarySearch_finds (hist : List Nat) (c : Nat)
    (hne : hist ≠ []) (hall : ∀ blk ∈ hist, blk = c) :
    ∀ fuel (lo hi : Int) fb, lo ≤ (c : Int) → (c : Int) ≤ hi →
      (hi + 1 - lo).toNat < fuel →
      binarySearchFirst hist fuel lo hi fb = c := by
  intro fuel
  induction fuel with
  | zero => intro lo hi fb hlo hhi hf; omega
  | succ n ih =>
    intro lo hi fb hlo hhi hf
    unfold binarySearchFirst
    rw [if_pos (by omega : lo ≤ hi)]
    have hmid1 : lo ≤ (lo + hi) / 2 := by omega
    have hmid2 : (lo + hi) / 2 ≤ hi := by omega
    by_cases hm : (c : Int) ≤ (lo + hi) / 2
    · have hnonempty :
          (transferBlocksInInt hist lo ((lo + hi) / 2)).isEmpty = false := by
        rw [Bool.eq_false_iff]
        intro he
        rw [transferBlocksInInt_all_eq_empty_iff hist c hne hall] at he
        exact he ⟨hlo, hm⟩
      simp only [hnonempty, Bool.false_eq_true, if_false]
      have hminb : minBlock (transferBlocksInInt hist lo ((lo + hi) / 2)) = c := by
        apply minBlock_all_eq _ c
        · intro hnil
          rw [← List.isEmpty_iff] at hnil
          rw [hnonempty] at hnil
          cases hnil
        · intro b hb
          unfold transferBlocksInInt at hb
          exact hall b (List.mem_of_mem_filter hb)
      rw [hminb]
      exact binarySearch_after_hit hist c hne hall n lo ((c : Int) - 1) c
        (by omega) (by omega)
    · push_neg at hm
      have hempty : (transferBlocksInInt hist lo ((lo + hi) / 2)).isEmpty = true := by
        rw [transferBlocksInInt_all_eq_empty_iff hist c hne hall]
        omega
      simp only [hempty, if_true]
      exact ih ((lo + hi) / 2 + 1) hi fb (by omega) hhi (by omega)

/-- C8 amended: for every synthetic transfer history whose transfers all
occur at block 12345 (earliest transfer 12345, none before it, and none at
any later block) with the chain head at or beyond 12345,
`findFirstActiveBlock` returns exactly 12345, regardless of the initial
scan-window size and of the window cap. -/
theorem c8_all_transfers_at_12345 (hist : List Nat) (latest w0 maxW : Nat)
    (hne : hist ≠ []) (hall : ∀ blk ∈ hist, blk = 12345)
    (hlatest : 12345 ≤ latest) :
    findFirstActiveBlock hist latest w0 maxW = 12345 := by
  unfold findFirstActiveBlock
  obtain ⟨f, t, hscan, hf, ht, hft⟩ :=
    firstBlockScan_finds hist 12345 maxW hne hall (by omega)
      (latest + 1) latest w0 hlatest (by omega)
  rw [hscan]
  exact binarySearch_finds hist 12345 hne hall (t - f + 2) f t t
    (by exact_mod_cast hf) (by exact_mod_cast ht) (by omega)

/-- C8 witness: a single transfer at block 12345 with chain head 12346,
initial window 1 and window cap 4 locates block 12345. -/
theorem c8_all_transfers_at_12345_witness :
    findFirstActiveBlock [12345] 12346 1 4 = 12345 :=
  c8_all_transfers_at_12345 [12345] 12346 1 4 (by simp)
    (by intro blk hb; simpa using hb) (by omega)

end VLaunch
